import Mathlib

/-!
# Verification of the Cardano tagged-CBOR record codec

Shallow embedding of `src/libs/ur-registry/src/cardano/cardano_sign_request.rs`
and `src/libs/ur-registry/src/cardano/cardano_signature.rs`.

The two source files interact with the CBOR wire format only through the
minicbor `Encoder`/`Decoder` interface (`e.map`, `e.int`, `e.tag`, `e.bytes`,
`e.str`, `e.array` and the corresponding reads).  Each of those calls emits or
consumes exactly one wire item, and minicbor's byte-level rendering of each
item is injective, so the codec is embedded at the level of the token stream
exchanged through that interface: an encoded buffer is a `List CborToken`,
an encoder is a function producing such a list, and a decoder is a cursor
(suffix) over such a list.
-/

set_option maxRecDepth 4000

deriving instance DecidableEq for Except

namespace UrRegistry

/-- Model of the Rust `Bytes = Vec<u8>` payload type.  The byte values are
never inspected by the codec, only moved, so plain naturals suffice. -/
abbrev Bytes := List Nat

/-- One item written through / read from the minicbor `Encoder`/`Decoder`
interface by the source files. -/
inductive CborToken where
  /-- `e.map(n)` / `d.map()`: a map header announcing `n` key/value pairs. -/
  | mapH (n : Nat)
  /-- `e.array(n)` / `d.array()`: an array header announcing `n` elements. -/
  | arrH (n : Nat)
  /-- `e.int(i)` / `d.int()`: an integer. -/
  | int (i : Int)
  /-- `e.tag(Tag::Unassigned(t))` / `d.tag()`: a semantic tag. -/
  | tag (t : Nat)
  /-- `e.bytes(b)` / `d.bytes()`: a byte string. -/
  | bytes (b : Bytes)
  /-- `e.str(s)` / `d.str()`: a UTF-8 text string. -/
  | str (s : String)
deriving DecidableEq, Repr

/-- Model of `minicbor::decode::Error` as used by the source: the source only
constructs `Error::message(..)` itself and otherwise propagates the library's
type-mismatch / end-of-input errors unchanged. -/
inductive DecodeError where
  | endOfInput
  | typeMismatch (expected : String)
  | message (s : String)
deriving DecidableEq, Repr

/-- Model of `crate::error::URError` (only the variant the two files use). -/
inductive URError where
  | CborDecodeError (s : String)
deriving DecidableEq, Repr

/-- Rendering of a decode error to a string, for the `e.to_string()` calls in
`from_cbor`.  The exact text is irrelevant to every claim. -/
def DecodeError.render : DecodeError → String
  | .endOfInput => "end of input bytes"
  | .typeMismatch s => "unexpected type, expected " ++ s
  | .message s => s

/-- Model of `Decoder::map` restricted to definite-length maps (the only form
the encoder in this repository ever produces). -/
def readMapHeader : List CborToken → Except DecodeError (Nat × List CborToken)
  | .mapH n :: ts => .ok (n, ts)
  | [] => .error .endOfInput
  | _ => .error (.typeMismatch "map")

/-- Model of `Decoder::array` restricted to definite-length arrays. -/
def readArrayHeader : List CborToken → Except DecodeError (Nat × List CborToken)
  | .arrH n :: ts => .ok (n, ts)
  | [] => .error .endOfInput
  | _ => .error (.typeMismatch "array")

/-- Model of `Decoder::int`. -/
def readInt : List CborToken → Except DecodeError (Int × List CborToken)
  | .int i :: ts => .ok (i, ts)
  | [] => .error .endOfInput
  | _ => .error (.typeMismatch "int")

/-- Model of `Decoder::tag`: returns the tag value without comparing it to
anything (minicbor performs no tag validation; any validation would have to be
done by the caller, and the source files never do). -/
def readTag : List CborToken → Except DecodeError (Nat × List CborToken)
  | .tag t :: ts => .ok (t, ts)
  | [] => .error .endOfInput
  | _ => .error (.typeMismatch "tag")

/-- Model of `Decoder::bytes`. -/
def readBytes : List CborToken → Except DecodeError (Bytes × List CborToken)
  | .bytes b :: ts => .ok (b, ts)
  | [] => .error .endOfInput
  | _ => .error (.typeMismatch "bytes")

/-- Model of `Decoder::str`. -/
def readStr : List CborToken → Except DecodeError (String × List CborToken)
  | .str s :: ts => .ok (s, ts)
  | [] => .error .endOfInput
  | _ => .error (.typeMismatch "str")

/-- Model of the generic value skip (`Decoder::skip`): `skipItems n ts`
discards the next `n` complete CBOR data items from the stream.  A tag prefixes
the item it decorates, an array header of `k` elements turns one pending item
into `k`, and a map header of `k` pairs turns one pending item into `2 * k`. -/
def skipItems : Nat → List CborToken → Except DecodeError (List CborToken)
  | 0, ts => .ok ts
  | _ + 1, [] => .error .endOfInput
  | n + 1, t :: ts =>
    match t with
    | .int _ => skipItems n ts
    | .bytes _ => skipItems n ts
    | .str _ => skipItems n ts
    | .tag _ => skipItems (n + 1) ts
    | .arrH k => skipItems (n + k) ts
    | .mapH k => skipItems (n + 2 * k) ts

/-- An arbitrary well-formed CBOR value, used to quantify over the payload of
an unrecognized map entry. -/
inductive CborValue where
  | int (i : Int)
  | bytes (b : Bytes)
  | str (s : String)
  | tag (t : Nat) (v : CborValue)
  | arr (vs : List CborValue)
  | map (kvs : List (CborValue × CborValue))

mutual

/-- The token stream of one well-formed CBOR value. -/
def CborValue.toTokens : CborValue → List CborToken
  | .int i => [.int i]
  | .bytes b => [.bytes b]
  | .str s => [.str s]
  | .tag t v => .tag t :: v.toTokens
  | .arr vs => .arrH vs.length :: tokensOfList vs
  | .map kvs => .mapH kvs.length :: tokensOfPairs kvs

/-- Token stream of a list of CBOR values (array elements). -/
def tokensOfList : List CborValue → List CborToken
  | [] => []
  | v :: vs => v.toTokens ++ tokensOfList vs

/-- Token stream of a list of CBOR key/value pairs (map entries). -/
def tokensOfPairs : List (CborValue × CborValue) → List CborToken
  | [] => []
  | (k, v) :: kvs => k.toTokens ++ v.toTokens ++ tokensOfPairs kvs

end

/-- Modelled from the spec: `crate::cbor::cbor_map` is code of this repository
that is not under `src/`.  Spec §4.1 (`decode_map`): read the map header to
obtain the entry count, then for exactly that many iterations read one integer
key and invoke the dispatcher, which must consume exactly one value if it acts;
any key for which the dispatcher declines to act (leaves the cursor where it
was) has its value fully consumed by a generic skip before continuing.  The
cursor position is a suffix of the input, so "same position" is "same suffix
length". -/
def cborMapLoop {T : Type} (cb : Int → T → List CborToken → Except DecodeError (T × List CborToken)) :
    Nat → T → List CborToken → Except DecodeError (T × List CborToken)
  | 0, obj, d => .ok (obj, d)
  | n + 1, obj, d =>
    match readInt d with
    | .error e => .error e
    | .ok (key, d1) =>
      match cb key obj d1 with
      | .error e => .error e
      | .ok (obj2, d2) =>
        if d2.length = d1.length then
          match skipItems 1 d1 with
          | .error e => .error e
          | .ok d3 => cborMapLoop cb n obj2 d3
        else cborMapLoop cb n obj2 d2

/-- Modelled from the spec: entry point of `crate::cbor::cbor_map` (see
`cborMapLoop`). -/
def cbor_map {T : Type} (d : List CborToken) (obj : T)
    (cb : Int → T → List CborToken → Except DecodeError (T × List CborToken)) :
    Except DecodeError (T × List CborToken) :=
  match readMapHeader d with
  | .error e => .error e
  | .ok (n, d1) => cborMapLoop cb n obj d1

/-- Modelled from the spec: `crate::cbor::cbor_array` is code of this
repository that is not under `src/`.  From its call sites and spec §4.2: read
the array header for the element count, then invoke the callback once per
element with the running index; the callback consumes that element from the
cursor and extends the accumulator. -/
def cborArrayLoop {T : Type} (cb : Nat → T → List CborToken → Except DecodeError (T × List CborToken)) :
    Nat → Nat → T → List CborToken → Except DecodeError (T × List CborToken)
  | 0, _, obj, d => .ok (obj, d)
  | n + 1, idx, obj, d =>
    match cb idx obj d with
    | .error e => .error e
    | .ok (obj2, d2) => cborArrayLoop cb n (idx + 1) obj2 d2

/-- Modelled from the spec: entry point of `crate::cbor::cbor_array` (see
`cborArrayLoop`). -/
def cbor_array {T : Type} (d : List CborToken) (obj : T)
    (cb : Nat → T → List CborToken → Except DecodeError (T × List CborToken)) :
    Except DecodeError (T × List CborToken) :=
  match readArrayHeader d with
  | .error e => .error e
  | .ok (n, d1) => cborArrayLoop cb n 0 obj d1

/-- Model of `u8::try_from(key).map_err(|e| Error::message(e.to_string()))`
from both decoders: keys outside `0 ..= 255` are rejected with the rendered
`TryFromIntError` message. -/
def u8TryFrom : Int → Except DecodeError Nat
  | .ofNat n =>
    if n ≤ 255 then .ok n
    else .error (.message "out of range integral type conversion attempted")
  | .negSucc _ => .error (.message "out of range integral type conversion attempted")

/-- Model of the minicbor `Write` impl for `Vec<u8>`: its error type is
`Infallible`, so a write never fails. -/
def vecWrite (s : List CborToken) (t : CborToken) : Except Empty (List CborToken) :=
  .ok (s ++ [t])

/-- Driving an arbitrary fallible byte sink over a token sequence, the way
`minicbor::to_vec` drives `Encode::encode` over a `Write` sink: the first
write failure aborts and is propagated unchanged. -/
def emitAll {σ ε : Type} (write : σ → CborToken → Except ε σ) : σ → List CborToken → Except ε σ
  | s, [] => .ok s
  | s, t :: ts =>
    match write s t with
    | .error e => .error e
    | .ok s2 => emitAll write s2 ts

/-- Modelled from the spec: `crate::cardano::cardano_utxo::CardanoUTXO` is
code of this repository that is not under `src/`.  Per spec §6 the core only
requires each nested record codec to expose `encode`/`decode` where encode
produces one CBOR data item and decode consumes exactly that item and
reconstructs the record; the nested record is modelled as carrying its encoded
payload as one byte string. -/
structure CardanoUTXO where
  data : Bytes
deriving DecidableEq, Repr

/-- Modelled from the spec: token stream of `CardanoUTXO::encode` (one CBOR
data item, see `CardanoUTXO`). -/
def CardanoUTXO.encodeTokens (u : CardanoUTXO) : List CborToken :=
  [.bytes u.data]

/-- Modelled from the spec: `CardanoUTXO::decode` consumes exactly the item
written by `CardanoUTXO::encode`. -/
def CardanoUTXO.decodeTokens (d : List CborToken) :
    Except DecodeError (CardanoUTXO × List CborToken) :=
  match readBytes d with
  | .error e => .error e
  | .ok (b, d1) => .ok (⟨b⟩, d1)

/-- Modelled from the spec: `crate::cardano::cardano_cert_key::CardanoCertKey`
is code of this repository that is not under `src/`; modelled exactly like
`CardanoUTXO`. -/
structure CardanoCertKey where
  data : Bytes
deriving DecidableEq, Repr

/-- Modelled from the spec: token stream of `CardanoCertKey::encode`. -/
def CardanoCertKey.encodeTokens (c : CardanoCertKey) : List CborToken :=
  [.bytes c.data]

/-- Modelled from the spec: `CardanoCertKey::decode`. -/
def CardanoCertKey.decodeTokens (d : List CborToken) :
    Except DecodeError (CardanoCertKey × List CborToken) :=
  match readBytes d with
  | .error e => .error e
  | .ok (b, d1) => .ok (⟨b⟩, d1)

/-- `UUID.get_tag()`: registered tag of the UUID nested type.  The value is
fixed by `crate::registry_types` (not under `src/`) and is pinned by the
expected hex in the source file's own test (`d825` = tag 37). -/
def UUID_TAG : Nat := 37

/-- `CARDANO_UTXO.get_tag()`: pinned by the test vector (`d90899` = 2201). -/
def CARDANO_UTXO_TAG : Nat := 2201

/-- `CARDANO_CERT_KEY.get_tag()`: pinned by the test vector (`d9089c` = 2204). -/
def CARDANO_CERT_KEY_TAG : Nat := 2204

/-- Writing a sequence of nested records, each preceded by its registry tag:
the two `for` loops in `CardanoSignRequest::encode`. -/
def taggedSeq {α : Type} (t : Nat) (enc : α → List CborToken) : List α → List CborToken
  | [] => []
  | x :: xs => CborToken.tag t :: enc x ++ taggedSeq t enc xs

/-- The record of `cardano_sign_request.rs`, field for field.  `Default` on
the Rust side gives `None` / empty vector / empty string fields. -/
structure CardanoSignRequest where
  request_id : Option Bytes := none
  sign_data : Bytes := []
  utxos : List CardanoUTXO := []
  cert_keys : List CardanoCertKey := []
  origin : Option String := none
deriving DecidableEq, Repr

namespace CardanoSignRequest

/-- `const REQUEST_ID: u8 = 1`. -/
def REQUEST_ID : Nat := 1
/-- `const SIGN_DATA: u8 = 2`. -/
def SIGN_DATA : Nat := 2
/-- `const UTXOS: u8 = 3`. -/
def UTXOS : Nat := 3
/-- `const CERT_KEYS: u8 = 4`. -/
def CERT_KEYS : Nat := 4
/-- `const ORIGIN: u8 = 5`. -/
def ORIGIN : Nat := 5

/-- `CardanoSignRequest::default()`. -/
def default : CardanoSignRequest := {}

/-- `set_request_id`. -/
def set_request_id (r : CardanoSignRequest) (id : Option Bytes) : CardanoSignRequest :=
  { r with request_id := id }

/-- `set_sign_data`. -/
def set_sign_data (r : CardanoSignRequest) (data : Bytes) : CardanoSignRequest :=
  { r with sign_data := data }

/-- `set_utxos`. -/
def set_utxos (r : CardanoSignRequest) (utxos : List CardanoUTXO) : CardanoSignRequest :=
  { r with utxos := utxos }

/-- `set_cert_keys`. -/
def set_cert_keys (r : CardanoSignRequest) (cert_keys : List CardanoCertKey) : CardanoSignRequest :=
  { r with cert_keys := cert_keys }

/-- `set_origin`. -/
def set_origin (r : CardanoSignRequest) (origin : Option String) : CardanoSignRequest :=
  { r with origin := origin }

/-- `CardanoSignRequest::new`. -/
def new (request_id : Option Bytes) (sign_data : Bytes) (utxos : List CardanoUTXO)
    (cert_keys : List CardanoCertKey) (origin : Option String) : CardanoSignRequest :=
  { request_id := request_id, sign_data := sign_data, utxos := utxos,
    cert_keys := cert_keys, origin := origin }

/-- `CardanoSignRequest::get_map_size`: starts from 3 and adds one for each
populated optional field. -/
def get_map_size (r : CardanoSignRequest) : Nat :=
  let size := 3
  let size := if r.request_id.isSome then size + 1 else size
  let size := if r.origin.isSome then size + 1 else size
  size

/-- The token stream written by `CardanoSignRequest::encode`: the map header,
then per field in source order (REQUEST_ID if present, SIGN_DATA, UTXOS,
CERT_KEYS, ORIGIN if present). -/
def encodeTokens (r : CardanoSignRequest) : List CborToken :=
  CborToken.mapH r.get_map_size ::
    ((match r.request_id with
      | some id => [CborToken.int (REQUEST_ID : Nat), CborToken.tag UUID_TAG, CborToken.bytes id]
      | none => []) ++
     [CborToken.int (SIGN_DATA : Nat), CborToken.bytes r.sign_data] ++
     (CborToken.int (UTXOS : Nat) :: CborToken.arrH r.utxos.length ::
       taggedSeq CARDANO_UTXO_TAG CardanoUTXO.encodeTokens r.utxos) ++
     (CborToken.int (CERT_KEYS : Nat) :: CborToken.arrH r.cert_keys.length ::
       taggedSeq CARDANO_CERT_KEY_TAG CardanoCertKey.encodeTokens r.cert_keys) ++
     (match r.origin with
      | some o => [CborToken.int (ORIGIN : Nat), CborToken.str o]
      | none => []))

/-- The `cbor_array` callback of the UTXOS arm: reads the tag (discarding its
value) and pushes the decoded nested record onto the vector. -/
def utxoElement (_idx : Nat) (arr : List CardanoUTXO) (d : List CborToken) :
    Except DecodeError (List CardanoUTXO × List CborToken) :=
  match readTag d with
  | .error e => .error e
  | .ok (_, d1) =>
    match CardanoUTXO.decodeTokens d1 with
    | .error e => .error e
    | .ok (u, d2) => .ok (arr ++ [u], d2)

/-- The `cbor_array` callback of the CERT_KEYS arm. -/
def certKeyElement (_idx : Nat) (arr : List CardanoCertKey) (d : List CborToken) :
    Except DecodeError (List CardanoCertKey × List CborToken) :=
  match readTag d with
  | .error e => .error e
  | .ok (_, d1) =>
    match CardanoCertKey.decodeTokens d1 with
    | .error e => .error e
    | .ok (c, d2) => .ok (arr ++ [c], d2)

/-- The per-key dispatcher passed to `cbor_map` by
`CardanoSignRequest::decode`: convert the key through `u8::try_from`, then
branch on the field-key constants; an unrecognized key does nothing
(`_ => {}`). -/
def dispatch (key : Int) (obj : CardanoSignRequest) (d : List CborToken) :
    Except DecodeError (CardanoSignRequest × List CborToken) :=
  match u8TryFrom key with
  | .error e => .error e
  | .ok k =>
    if k = REQUEST_ID then
      match readTag d with
      | .error e => .error e
      | .ok (_, d1) =>
        match readBytes d1 with
        | .error e => .error e
        | .ok (b, d2) => .ok (obj.set_request_id (some b), d2)
    else if k = SIGN_DATA then
      match readBytes d with
      | .error e => .error e
      | .ok (b, d1) => .ok (obj.set_sign_data b, d1)
    else if k = UTXOS then
      match cbor_array d obj.utxos utxoElement with
      | .error e => .error e
      | .ok (us, d1) => .ok ({ obj with utxos := us }, d1)
    else if k = CERT_KEYS then
      match cbor_array d obj.cert_keys certKeyElement with
      | .error e => .error e
      | .ok (cs, d1) => .ok ({ obj with cert_keys := cs }, d1)
    else if k = ORIGIN then
      match readStr d with
      | .error e => .error e
      | .ok (s, d1) => .ok (obj.set_origin (some s), d1)
    else .ok (obj, d)

/-- `CardanoSignRequest::decode`: start from the default record and run the
map loop with `dispatch`. -/
def decodeTokens (d : List CborToken) :
    Except DecodeError (CardanoSignRequest × List CborToken) :=
  cbor_map d default dispatch

/-- `CardanoSignRequest::to_bytes` (`minicbor::to_vec` into a `Vec<u8>` sink,
whose write error type is `Infallible`). -/
def to_bytes (r : CardanoSignRequest) : Except URError (List CborToken) :=
  match emitAll vecWrite [] r.encodeTokens with
  | .ok out => .ok out
  | .error e => e.elim

/-- `CardanoSignRequest::from_cbor`. -/
def from_cbor (d : List CborToken) : Except URError CardanoSignRequest :=
  match decodeTokens d with
  | .ok (r, _) => .ok r
  | .error e => .error (.CborDecodeError e.render)

end CardanoSignRequest

/-- The record of `cardano_signature.rs` (`impl_template_struct!`), field for
field. -/
structure CardanoSignature where
  request_id : Option Bytes := none
  witness_set : Bytes := []
deriving DecidableEq, Repr

namespace CardanoSignature

/-- `const REQUEST_ID: u8 = 1`. -/
def REQUEST_ID : Nat := 1
/-- `const WITNESS_SET: u8 = 2`. -/
def WITNESS_SET : Nat := 2

/-- `CardanoSignature::default()`. -/
def default : CardanoSignature := {}

/-- `set_request_id`. -/
def set_request_id (s : CardanoSignature) (id : Option Bytes) : CardanoSignature :=
  { s with request_id := id }

/-- `set_witness_set`. -/
def set_witness_set (s : CardanoSignature) (w : Bytes) : CardanoSignature :=
  { s with witness_set := w }

/-- `MapSize for CardanoSignature`: starts from 1 and adds one if `request_id`
is populated. -/
def map_size (s : CardanoSignature) : Nat :=
  let size := 1
  let size := if s.request_id.isSome then size + 1 else size
  size

/-- The token stream written by `CardanoSignature::encode`. -/
def encodeTokens (s : CardanoSignature) : List CborToken :=
  CborToken.mapH s.map_size ::
    ((match s.request_id with
      | some id => [CborToken.int (REQUEST_ID : Nat), CborToken.tag UUID_TAG, CborToken.bytes id]
      | none => []) ++
     [CborToken.int (WITNESS_SET : Nat), CborToken.bytes s.witness_set])

/-- The per-key dispatcher passed to `cbor_map` by
`CardanoSignature::decode`. -/
def dispatch (key : Int) (obj : CardanoSignature) (d : List CborToken) :
    Except DecodeError (CardanoSignature × List CborToken) :=
  match u8TryFrom key with
  | .error e => .error e
  | .ok k =>
    if k = REQUEST_ID then
      match readTag d with
      | .error e => .error e
      | .ok (_, d1) =>
        match readBytes d1 with
        | .error e => .error e
        | .ok (b, d2) => .ok (obj.set_request_id (some b), d2)
    else if k = WITNESS_SET then
      match readBytes d with
      | .error e => .error e
      | .ok (b, d1) => .ok (obj.set_witness_set b, d1)
    else .ok (obj, d)

/-- `CardanoSignature::decode`. -/
def decodeTokens (d : List CborToken) :
    Except DecodeError (CardanoSignature × List CborToken) :=
  cbor_map d default dispatch

/-- `CardanoSignature::to_bytes`. -/
def to_bytes (s : CardanoSignature) : Except URError (List CborToken) :=
  match emitAll vecWrite [] s.encodeTokens with
  | .ok out => .ok out
  | .error e => e.elim

/-- `CardanoSignature::from_cbor`. -/
def from_cbor (d : List CborToken) : Except URError CardanoSignature :=
  match decodeTokens d with
  | .ok (s, _) => .ok s
  | .error e => .error (.CborDecodeError e.render)

end CardanoSignature

/-! ## Generic lemmas about the primitives -/

mutual

/-- The generic skip consumes exactly one well-formed value. -/
theorem skipItems_value : ∀ (v : CborValue) (n : Nat) (rest : List CborToken),
    skipItems (n + 1) (v.toTokens ++ rest) = skipItems n rest
  | .int _, _, _ => by simp [CborValue.toTokens, skipItems]
  | .bytes _, _, _ => by simp [CborValue.toTokens, skipItems]
  | .str _, _, _ => by simp [CborValue.toTokens, skipItems]
  | .tag t v, n, rest => by
    show skipItems (n + 1) (CborToken.tag t :: (v.toTokens ++ rest)) = skipItems n rest
    rw [show skipItems (n + 1) (CborToken.tag t :: (v.toTokens ++ rest))
        = skipItems (n + 1) (v.toTokens ++ rest) from by simp [skipItems]]
    exact skipItems_value v n rest
  | .arr vs, n, rest => by
    show skipItems (n + 1) (CborToken.arrH vs.length :: (tokensOfList vs ++ rest))
        = skipItems n rest
    rw [show skipItems (n + 1) (CborToken.arrH vs.length :: (tokensOfList vs ++ rest))
        = skipItems (n + vs.length) (tokensOfList vs ++ rest) from by simp [skipItems]]
    exact skipItems_valueList vs n rest
  | .map kvs, n, rest => by
    show skipItems (n + 1) (CborToken.mapH kvs.length :: (tokensOfPairs kvs ++ rest))
        = skipItems n rest
    rw [show skipItems (n + 1) (CborToken.mapH kvs.length :: (tokensOfPairs kvs ++ rest))
        = skipItems (n + 2 * kvs.length) (tokensOfPairs kvs ++ rest) from by simp [skipItems]]
    exact skipItems_pairList kvs n rest

/-- The generic skip consumes exactly `vs.length` well-formed array
elements. -/
theorem skipItems_valueList : ∀ (vs : List CborValue) (n : Nat) (rest : List CborToken),
    skipItems (n + vs.length) (tokensOfList vs ++ rest) = skipItems n rest
  | [], n, rest => by simp [tokensOfList]
  | v :: vs, n, rest => by
    show skipItems (n + vs.length + 1) ((v.toTokens ++ tokensOfList vs) ++ rest)
        = skipItems n rest
    rw [List.append_assoc, skipItems_value v (n + vs.length) (tokensOfList vs ++ rest)]
    exact skipItems_valueList vs n rest

/-- The generic skip consumes exactly `2 * kvs.length` items for `kvs`
well-formed map entries. -/
theorem skipItems_pairList : ∀ (kvs : List (CborValue × CborValue)) (n : Nat)
    (rest : List CborToken),
    skipItems (n + 2 * kvs.length) (tokensOfPairs kvs ++ rest) = skipItems n rest
  | [], n, rest => by simp [tokensOfPairs]
  | (k, v) :: kvs, n, rest => by
    show skipItems (n + 2 * kvs.length + 1 + 1)
        ((k.toTokens ++ v.toTokens ++ tokensOfPairs kvs) ++ rest) = skipItems n rest
    rw [List.append_assoc, List.append_assoc,
      skipItems_value k (n + 2 * kvs.length + 1) (v.toTokens ++ (tokensOfPairs kvs ++ rest)),
      skipItems_value v (n + 2 * kvs.length) (tokensOfPairs kvs ++ rest)]
    exact skipItems_pairList kvs n rest

end

/-- One iteration of the map loop for an entry whose dispatch consumes part of
the stream (the cursor moved, so no skip happens). -/
theorem cborMapLoop_step_consumed {T : Type}
    (cb : Int → T → List CborToken → Except DecodeError (T × List CborToken))
    (n : Nat) (obj : T) {d d1 d2 : List CborToken} {key : Int} {obj2 : T}
    (hread : readInt d = .ok (key, d1)) (hcb : cb key obj d1 = .ok (obj2, d2))
    (hlen : ¬ d2.length = d1.length) :
    cborMapLoop cb (n + 1) obj d = cborMapLoop cb n obj2 d2 := by
  simp only [cborMapLoop, hread, hcb, if_neg hlen]

/-- One iteration of the map loop for an entry whose dispatch declines to act
(the cursor did not move): the value is removed by the generic skip. -/
theorem cborMapLoop_step_skipped {T : Type}
    (cb : Int → T → List CborToken → Except DecodeError (T × List CborToken))
    (n : Nat) (obj : T) {d d1 d3 : List CborToken} {key : Int} {obj2 : T}
    (hread : readInt d = .ok (key, d1)) (hcb : cb key obj d1 = .ok (obj2, d1))
    (hskip : skipItems 1 d1 = .ok d3) :
    cborMapLoop cb (n + 1) obj d = cborMapLoop cb n obj2 d3 := by
  simp only [cborMapLoop, hread, hcb, if_pos rfl, hskip, if_true]

/-- One iteration of the map loop whose dispatch fails propagates the
error. -/
theorem cborMapLoop_step_error {T : Type}
    (cb : Int → T → List CborToken → Except DecodeError (T × List CborToken))
    (n : Nat) (obj : T) {d d1 : List CborToken} {key : Int} {e : DecodeError}
    (hread : readInt d = .ok (key, d1)) (hcb : cb key obj d1 = .error e) :
    cborMapLoop cb (n + 1) obj d = .error e := by
  simp only [cborMapLoop, hread, hcb]

/-- Driving the infallible `Vec<u8>` sink over a token sequence appends it
whole and never fails. -/
theorem emitAll_vecWrite (acc ts : List CborToken) :
    emitAll vecWrite acc ts = .ok (acc ++ ts) := by
  induction ts generalizing acc with
  | nil => simp [emitAll]
  | cons t ts ih => simp [emitAll, vecWrite, ih]

/-- `u8::try_from` succeeds on a natural key below 256. -/
theorem u8TryFrom_coe (k : Nat) (hk : k ≤ 255) : u8TryFrom (k : Int) = .ok k := by
  show u8TryFrom (Int.ofNat k) = .ok k
  simp [u8TryFrom, hk]

/-! ## Behaviour of the `CardanoSignRequest` dispatcher on each entry shape -/

/-- The REQUEST_ID arm: reads a tag of any value, then the byte string. -/
theorem reqDispatch_key1 (obj : CardanoSignRequest) (t : Nat) (b : Bytes)
    (rest : List CborToken) :
    CardanoSignRequest.dispatch (1 : Int) obj
      (CborToken.tag t :: CborToken.bytes b :: rest)
      = .ok ({ obj with request_id := some b }, rest) := by
  simp [CardanoSignRequest.dispatch, show u8TryFrom 1 = .ok 1 from by decide,
    CardanoSignRequest.REQUEST_ID, readTag, readBytes, CardanoSignRequest.set_request_id]

/-- The SIGN_DATA arm: reads the byte string. -/
theorem reqDispatch_key2 (obj : CardanoSignRequest) (b : Bytes) (rest : List CborToken) :
    CardanoSignRequest.dispatch (2 : Int) obj (CborToken.bytes b :: rest)
      = .ok ({ obj with sign_data := b }, rest) := by
  simp [CardanoSignRequest.dispatch, show u8TryFrom 2 = .ok 2 from by decide,
    CardanoSignRequest.REQUEST_ID, CardanoSignRequest.SIGN_DATA, readBytes,
    CardanoSignRequest.set_sign_data]

/-- The array loop of the UTXOS arm pushes the decoded elements, whatever tag
value precedes each element. -/
theorem req_arrayLoop_utxos (t : Nat) (us : List CardanoUTXO) :
    ∀ (idx : Nat) (acc : List CardanoUTXO) (rest : List CborToken),
    cborArrayLoop CardanoSignRequest.utxoElement us.length idx acc
      (taggedSeq t CardanoUTXO.encodeTokens us ++ rest) = .ok (acc ++ us, rest) := by
  induction us with
  | nil => intro idx acc rest; simp [taggedSeq, cborArrayLoop]
  | cons u us ih =>
    intro idx acc rest
    obtain ⟨b⟩ := u
    simp [taggedSeq, cborArrayLoop, CardanoSignRequest.utxoElement, CardanoUTXO.encodeTokens,
      CardanoUTXO.decodeTokens, readTag, readBytes, ih]

/-- The array loop of the CERT_KEYS arm. -/
theorem req_arrayLoop_certKeys (t : Nat) (cs : List CardanoCertKey) :
    ∀ (idx : Nat) (acc : List CardanoCertKey) (rest : List CborToken),
    cborArrayLoop CardanoSignRequest.certKeyElement cs.length idx acc
      (taggedSeq t CardanoCertKey.encodeTokens cs ++ rest) = .ok (acc ++ cs, rest) := by
  induction cs with
  | nil => intro idx acc rest; simp [taggedSeq, cborArrayLoop]
  | cons c cs ih =>
    intro idx acc rest
    obtain ⟨b⟩ := c
    simp [taggedSeq, cborArrayLoop, CardanoSignRequest.certKeyElement,
      CardanoCertKey.encodeTokens, CardanoCertKey.decodeTokens, readTag, readBytes, ih]

/-- The UTXOS arm: reads the array header, then pushes each tag-prefixed
element onto the vector the record already holds. -/
theorem reqDispatch_key3 (obj : CardanoSignRequest) (t : Nat) (us : List CardanoUTXO)
    (rest : List CborToken) :
    CardanoSignRequest.dispatch (3 : Int) obj
      (CborToken.arrH us.length :: taggedSeq t CardanoUTXO.encodeTokens us ++ rest)
      = .ok ({ obj with utxos := obj.utxos ++ us }, rest) := by
  have harr := req_arrayLoop_utxos t us 0 obj.utxos rest
  simp [CardanoSignRequest.dispatch, show u8TryFrom 3 = .ok 3 from by decide,
    CardanoSignRequest.REQUEST_ID, CardanoSignRequest.SIGN_DATA, CardanoSignRequest.UTXOS,
    cbor_array, readArrayHeader, harr]

/-- The CERT_KEYS arm. -/
theorem reqDispatch_key4 (obj : CardanoSignRequest) (t : Nat) (cs : List CardanoCertKey)
    (rest : List CborToken) :
    CardanoSignRequest.dispatch (4 : Int) obj
      (CborToken.arrH cs.length :: taggedSeq t CardanoCertKey.encodeTokens cs ++ rest)
      = .ok ({ obj with cert_keys := obj.cert_keys ++ cs }, rest) := by
  have harr := req_arrayLoop_certKeys t cs 0 obj.cert_keys rest
  simp [CardanoSignRequest.dispatch, show u8TryFrom 4 = .ok 4 from by decide,
    CardanoSignRequest.REQUEST_ID, CardanoSignRequest.SIGN_DATA, CardanoSignRequest.UTXOS,
    CardanoSignRequest.CERT_KEYS, cbor_array, readArrayHeader, harr]

/-- The ORIGIN arm: reads the text string. -/
theorem reqDispatch_key5 (obj : CardanoSignRequest) (s : String) (rest : List CborToken) :
    CardanoSignRequest.dispatch (5 : Int) obj (CborToken.str s :: rest)
      = .ok ({ obj with origin := some s }, rest) := by
  simp [CardanoSignRequest.dispatch, show u8TryFrom 5 = .ok 5 from by decide,
    CardanoSignRequest.REQUEST_ID, CardanoSignRequest.SIGN_DATA, CardanoSignRequest.UTXOS,
    CardanoSignRequest.CERT_KEYS, CardanoSignRequest.ORIGIN, readStr,
    CardanoSignRequest.set_origin]

/-- The `_ => {}` arm: a key inside `u8` range but off the field table leaves
both the record and the cursor untouched. -/
theorem reqDispatch_unknown (k : Nat) (hk : k ≤ 255) (h1 : k ≠ 1) (h2 : k ≠ 2)
    (h3 : k ≠ 3) (h4 : k ≠ 4) (h5 : k ≠ 5) (obj : CardanoSignRequest)
    (d : List CborToken) :
    CardanoSignRequest.dispatch (k : Int) obj d = .ok (obj, d) := by
  simp only [CardanoSignRequest.dispatch, u8TryFrom_coe k hk,
    CardanoSignRequest.REQUEST_ID, CardanoSignRequest.SIGN_DATA, CardanoSignRequest.UTXOS,
    CardanoSignRequest.CERT_KEYS, CardanoSignRequest.ORIGIN,
    if_neg h1, if_neg h2, if_neg h3, if_neg h4, if_neg h5]

/-! ## Map entries of a `CardanoSignRequest` buffer

One well-shaped map entry, as the encoder emits it and as the decoder
dispatches on it.  A list of entries describes a whole map body, so statements
about duplicate keys, unknown keys and round trips are all statements about
entry lists. -/

/-- One map entry of a `CardanoSignRequest` buffer: the five recognized
shapes, plus an unrecognized entry carrying an arbitrary well-formed value.
The nested-record entries carry the tag value that sits in front of the
nested encoding(s); the encoder always emits the registered tag there, while
the decoder accepts any (see `reqDispatch_key1`). -/
inductive ReqEntry where
  | reqId (t : Nat) (b : Bytes)
  | signData (b : Bytes)
  | utxos (t : Nat) (us : List CardanoUTXO)
  | certKeys (t : Nat) (cs : List CardanoCertKey)
  | origin (s : String)
  | unknown (k : Nat) (v : CborValue)

/-- The integer key of an entry. -/
def ReqEntry.key : ReqEntry → Int
  | .reqId _ _ => 1
  | .signData _ => 2
  | .utxos _ _ => 3
  | .certKeys _ _ => 4
  | .origin _ => 5
  | .unknown k _ => (k : Int)

/-- The token stream of an entry's value, in the exact shape the encoder
emits (tag-prefixed nested records, array headers for repeated fields). -/
def ReqEntry.valueTokens : ReqEntry → List CborToken
  | .reqId t b => [.tag t, .bytes b]
  | .signData b => [.bytes b]
  | .utxos t us => .arrH us.length :: taggedSeq t CardanoUTXO.encodeTokens us
  | .certKeys t cs => .arrH cs.length :: taggedSeq t CardanoCertKey.encodeTokens cs
  | .origin s => [.str s]
  | .unknown _ v => v.toTokens

/-- The token stream of a whole entry: the key, then the value. -/
def ReqEntry.toTokens (e : ReqEntry) : List CborToken :=
  .int e.key :: e.valueTokens

/-- Token stream of a list of entries (a map body). -/
def reqEntriesTokens : List ReqEntry → List CborToken
  | [] => []
  | e :: es => e.toTokens ++ reqEntriesTokens es

/-- The effect of dispatching one entry onto the record under construction:
scalar fields are overwritten, the repeated nested fields are appended to, an
unrecognized entry does nothing. -/
def ReqEntry.apply (obj : CardanoSignRequest) : ReqEntry → CardanoSignRequest
  | .reqId _ b => { obj with request_id := some b }
  | .signData b => { obj with sign_data := b }
  | .utxos _ us => { obj with utxos := obj.utxos ++ us }
  | .certKeys _ cs => { obj with cert_keys := obj.cert_keys ++ cs }
  | .origin s => { obj with origin := some s }
  | .unknown _ _ => obj

/-- An entry the decoder can process without failing: recognized entries
always, unrecognized ones when their key fits in `u8` (the `u8::try_from` in
the dispatcher rejects larger keys). -/
def ReqEntry.wf : ReqEntry → Prop
  | .unknown k _ => k ≤ 255 ∧ k ≠ 1 ∧ k ≠ 2 ∧ k ≠ 3 ∧ k ≠ 4 ∧ k ≠ 5
  | _ => True

instance (e : ReqEntry) : Decidable e.wf := by
  cases e <;> simp only [ReqEntry.wf] <;> infer_instance

/-- The value tokens of a recognized entry are never empty, so the cursor
moves and `cbor_map` does not skip. -/
theorem reqEntry_processed (e : ReqEntry) (hwf : e.wf) (n : Nat)
    (obj : CardanoSignRequest) (rest : List CborToken) :
    cborMapLoop CardanoSignRequest.dispatch (n + 1) obj (e.toTokens ++ rest)
      = cborMapLoop CardanoSignRequest.dispatch n (e.apply obj) rest := by
  cases e with
  | reqId t b =>
    exact cborMapLoop_step_consumed _ n obj rfl (reqDispatch_key1 obj t b rest)
      (by simp [ReqEntry.valueTokens]; omega)
  | signData b =>
    exact cborMapLoop_step_consumed _ n obj rfl (reqDispatch_key2 obj b rest)
      (by simp [ReqEntry.valueTokens])
  | utxos t us =>
    exact cborMapLoop_step_consumed _ n obj rfl
      (reqDispatch_key3 obj t us rest)
      (by simp [ReqEntry.valueTokens]; omega)
  | certKeys t cs =>
    exact cborMapLoop_step_consumed _ n obj rfl
      (reqDispatch_key4 obj t cs rest)
      (by simp [ReqEntry.valueTokens]; omega)
  | origin s =>
    exact cborMapLoop_step_consumed _ n obj rfl (reqDispatch_key5 obj s rest)
      (by simp [ReqEntry.valueTokens])
  | unknown k v =>
    obtain ⟨hk, h1, h2, h3, h4, h5⟩ := hwf
    exact cborMapLoop_step_skipped _ n obj rfl
      (reqDispatch_unknown k hk h1 h2 h3 h4 h5 obj (v.toTokens ++ rest))
      ((skipItems_value v 0 rest).trans (by simp [skipItems]))

/-- Running the decode loop over a list of well-formed entries folds their
effects, left to right, over the record under construction. -/
theorem req_loop_entries (es : List ReqEntry) (hwf : ∀ e ∈ es, e.wf) :
    ∀ (obj : CardanoSignRequest) (rest : List CborToken),
    cborMapLoop CardanoSignRequest.dispatch es.length obj (reqEntriesTokens es ++ rest)
      = .ok (es.foldl ReqEntry.apply obj, rest) := by
  induction es with
  | nil => intro obj rest; simp [reqEntriesTokens, cborMapLoop]
  | cons e es ih =>
    intro obj rest
    have step := reqEntry_processed e (hwf e (by simp)) es.length obj
      (reqEntriesTokens es ++ rest)
    calc cborMapLoop CardanoSignRequest.dispatch (e :: es).length obj
          (reqEntriesTokens (e :: es) ++ rest)
        = cborMapLoop CardanoSignRequest.dispatch (es.length + 1) obj
            (e.toTokens ++ (reqEntriesTokens es ++ rest)) := by
          simp [reqEntriesTokens, List.append_assoc]
      _ = cborMapLoop CardanoSignRequest.dispatch es.length (e.apply obj)
            (reqEntriesTokens es ++ rest) := step
      _ = .ok (es.foldl ReqEntry.apply (e.apply obj), rest) :=
          ih (fun x hx => hwf x (by simp [hx])) (e.apply obj) rest
      _ = .ok ((e :: es).foldl ReqEntry.apply obj, rest) := by simp

/-- Decoding a map of well-formed entries succeeds and folds their effects
over the default record, consuming the whole buffer. -/
theorem req_decode_entries (es : List ReqEntry) (hwf : ∀ e ∈ es, e.wf) :
    CardanoSignRequest.decodeTokens (CborToken.mapH es.length :: reqEntriesTokens es)
      = .ok (es.foldl ReqEntry.apply CardanoSignRequest.default, []) := by
  have h := req_loop_entries es hwf CardanoSignRequest.default []
  simp only [List.append_nil] at h
  simpa [CardanoSignRequest.decodeTokens, cbor_map, readMapHeader] using h

/-- The entries the encoder emits for a record: REQUEST_ID when present, then
SIGN_DATA, UTXOS, CERT_KEYS, then ORIGIN when present — ascending key order,
an absent optional field contributing nothing. -/
def reqFieldEntries (r : CardanoSignRequest) : List ReqEntry :=
  (match r.request_id with
   | some b => [ReqEntry.reqId UUID_TAG b]
   | none => []) ++
  [ReqEntry.signData r.sign_data, ReqEntry.utxos CARDANO_UTXO_TAG r.utxos,
    ReqEntry.certKeys CARDANO_CERT_KEY_TAG r.cert_keys] ++
  (match r.origin with
   | some s => [ReqEntry.origin s]
   | none => [])

/-- `CardanoSignRequest::encode` is exactly the map header over the field
entries' token streams. -/
theorem req_encode_entries (r : CardanoSignRequest) :
    r.encodeTokens = CborToken.mapH r.get_map_size :: reqEntriesTokens (reqFieldEntries r) := by
  obtain ⟨rid, sd, us, cs, og⟩ := r
  cases rid <;> cases og <;>
    simp [CardanoSignRequest.encodeTokens, reqFieldEntries, reqEntriesTokens,
      ReqEntry.toTokens, ReqEntry.key, ReqEntry.valueTokens, List.append_assoc,
      CardanoSignRequest.REQUEST_ID, CardanoSignRequest.SIGN_DATA, CardanoSignRequest.UTXOS,
      CardanoSignRequest.CERT_KEYS, CardanoSignRequest.ORIGIN]

/-- `get_map_size` counts exactly the emitted entries. -/
theorem req_size_entries (r : CardanoSignRequest) :
    r.get_map_size = (reqFieldEntries r).length := by
  obtain ⟨rid, sd, us, cs, og⟩ := r
  cases rid <;> cases og <;> simp [CardanoSignRequest.get_map_size, reqFieldEntries]

/-- Folding a record's own field entries over the default record rebuilds the
record. -/
theorem req_fold_entries (r : CardanoSignRequest) :
    (reqFieldEntries r).foldl ReqEntry.apply CardanoSignRequest.default = r := by
  obtain ⟨rid, sd, us, cs, og⟩ := r
  cases rid <;> cases og <;>
    simp [reqFieldEntries, ReqEntry.apply, CardanoSignRequest.default]

/-- The encoder never emits an unrecognized entry, so all field entries are
well-formed. -/
theorem req_fieldEntries_wf (r : CardanoSignRequest) : ∀ e ∈ reqFieldEntries r, e.wf := by
  intro e he
  cases e
  case unknown k v =>
    obtain ⟨rid, sd, us, cs, og⟩ := r
    cases rid <;> cases og <;> simp [reqFieldEntries] at he
  all_goals trivial

/-- Token-level round trip for `CardanoSignRequest`. -/
theorem req_roundtrip (r : CardanoSignRequest) :
    CardanoSignRequest.decodeTokens r.encodeTokens = .ok (r, []) := by
  rw [req_encode_entries, req_size_entries,
    req_decode_entries (reqFieldEntries r) (req_fieldEntries_wf r), req_fold_entries]

/-! ## The same development for `CardanoSignature` -/

/-- The REQUEST_ID arm of the signature dispatcher. -/
theorem sigDispatch_key1 (obj : CardanoSignature) (t : Nat) (b : Bytes)
    (rest : List CborToken) :
    CardanoSignature.dispatch (1 : Int) obj (CborToken.tag t :: CborToken.bytes b :: rest)
      = .ok ({ obj with request_id := some b }, rest) := by
  simp [CardanoSignature.dispatch, show u8TryFrom 1 = .ok 1 from by decide,
    CardanoSignature.REQUEST_ID, readTag, readBytes, CardanoSignature.set_request_id]

/-- The WITNESS_SET arm of the signature dispatcher. -/
theorem sigDispatch_key2 (obj : CardanoSignature) (b : Bytes) (rest : List CborToken) :
    CardanoSignature.dispatch (2 : Int) obj (CborToken.bytes b :: rest)
      = .ok ({ obj with witness_set := b }, rest) := by
  simp [CardanoSignature.dispatch, show u8TryFrom 2 = .ok 2 from by decide,
    CardanoSignature.REQUEST_ID, CardanoSignature.WITNESS_SET, readBytes,
    CardanoSignature.set_witness_set]

/-- The `_ => {}` arm of the signature dispatcher. -/
theorem sigDispatch_unknown (k : Nat) (hk : k ≤ 255) (h1 : k ≠ 1) (h2 : k ≠ 2)
    (obj : CardanoSignature) (d : List CborToken) :
    CardanoSignature.dispatch (k : Int) obj d = .ok (obj, d) := by
  simp only [CardanoSignature.dispatch, u8TryFrom_coe k hk,
    CardanoSignature.REQUEST_ID, CardanoSignature.WITNESS_SET, if_neg h1, if_neg h2]

/-- One map entry of a `CardanoSignature` buffer. -/
inductive SigEntry where
  | reqId (t : Nat) (b : Bytes)
  | witnessSet (b : Bytes)
  | unknown (k : Nat) (v : CborValue)

/-- The integer key of a signature entry. -/
def SigEntry.key : SigEntry → Int
  | .reqId _ _ => 1
  | .witnessSet _ => 2
  | .unknown k _ => (k : Int)

/-- The value tokens of a signature entry. -/
def SigEntry.valueTokens : SigEntry → List CborToken
  | .reqId t b => [.tag t, .bytes b]
  | .witnessSet b => [.bytes b]
  | .unknown _ v => v.toTokens

/-- The token stream of a whole signature entry. -/
def SigEntry.toTokens (e : SigEntry) : List CborToken :=
  .int e.key :: e.valueTokens

/-- Token stream of a list of signature entries. -/
def sigEntriesTokens : List SigEntry → List CborToken
  | [] => []
  | e :: es => e.toTokens ++ sigEntriesTokens es

/-- The effect of dispatching one signature entry. -/
def SigEntry.apply (obj : CardanoSignature) : SigEntry → CardanoSignature
  | .reqId _ b => { obj with request_id := some b }
  | .witnessSet b => { obj with witness_set := b }
  | .unknown _ _ => obj

/-- A signature entry the decoder can process without failing. -/
def SigEntry.wf : SigEntry → Prop
  | .unknown k _ => k ≤ 255 ∧ k ≠ 1 ∧ k ≠ 2
  | _ => True

instance (e : SigEntry) : Decidable e.wf := by
  cases e <;> simp only [SigEntry.wf] <;> infer_instance

/-- One loop iteration processes one well-formed signature entry. -/
theorem sigEntry_processed (e : SigEntry) (hwf : e.wf) (n : Nat)
    (obj : CardanoSignature) (rest : List CborToken) :
    cborMapLoop CardanoSignature.dispatch (n + 1) obj (e.toTokens ++ rest)
      = cborMapLoop CardanoSignature.dispatch n (e.apply obj) rest := by
  cases e with
  | reqId t b =>
    exact cborMapLoop_step_consumed _ n obj rfl (sigDispatch_key1 obj t b rest)
      (by simp [SigEntry.valueTokens]; omega)
  | witnessSet b =>
    exact cborMapLoop_step_consumed _ n obj rfl (sigDispatch_key2 obj b rest)
      (by simp [SigEntry.valueTokens])
  | unknown k v =>
    obtain ⟨hk, h1, h2⟩ := hwf
    exact cborMapLoop_step_skipped _ n obj rfl
      (sigDispatch_unknown k hk h1 h2 obj (v.toTokens ++ rest))
      ((skipItems_value v 0 rest).trans (by simp [skipItems]))

/-- The signature decode loop folds well-formed entries left to right. -/
theorem sig_loop_entries (es : List SigEntry) (hwf : ∀ e ∈ es, e.wf) :
    ∀ (obj : CardanoSignature) (rest : List CborToken),
    cborMapLoop CardanoSignature.dispatch es.length obj (sigEntriesTokens es ++ rest)
      = .ok (es.foldl SigEntry.apply obj, rest) := by
  induction es with
  | nil => intro obj rest; simp [sigEntriesTokens, cborMapLoop]
  | cons e es ih =>
    intro obj rest
    have step := sigEntry_processed e (hwf e (by simp)) es.length obj
      (sigEntriesTokens es ++ rest)
    calc cborMapLoop CardanoSignature.dispatch (e :: es).length obj
          (sigEntriesTokens (e :: es) ++ rest)
        = cborMapLoop CardanoSignature.dispatch (es.length + 1) obj
            (e.toTokens ++ (sigEntriesTokens es ++ rest)) := by
          simp [sigEntriesTokens, List.append_assoc]
      _ = cborMapLoop CardanoSignature.dispatch es.length (e.apply obj)
            (sigEntriesTokens es ++ rest) := step
      _ = .ok (es.foldl SigEntry.apply (e.apply obj), rest) :=
          ih (fun x hx => hwf x (by simp [hx])) (e.apply obj) rest
      _ = .ok ((e :: es).foldl SigEntry.apply obj, rest) := by simp

/-- Decoding a signature map of well-formed entries succeeds and folds their
effects over the default record. -/
theorem sig_decode_entries (es : List SigEntry) (hwf : ∀ e ∈ es, e.wf) :
    CardanoSignature.decodeTokens (CborToken.mapH es.length :: sigEntriesTokens es)
      = .ok (es.foldl SigEntry.apply CardanoSignature.default, []) := by
  have h := sig_loop_entries es hwf CardanoSignature.default []
  simp only [List.append_nil] at h
  simpa [CardanoSignature.decodeTokens, cbor_map, readMapHeader] using h

/-- The entries the signature encoder emits. -/
def sigFieldEntries (s : CardanoSignature) : List SigEntry :=
  (match s.request_id with
   | some b => [SigEntry.reqId UUID_TAG b]
   | none => []) ++
  [SigEntry.witnessSet s.witness_set]

/-- `CardanoSignature::encode` is the map header over the field entries. -/
theorem sig_encode_entries (s : CardanoSignature) :
    s.encodeTokens = CborToken.mapH s.map_size :: sigEntriesTokens (sigFieldEntries s) := by
  obtain ⟨rid, w⟩ := s
  cases rid <;>
    simp [CardanoSignature.encodeTokens, sigFieldEntries, sigEntriesTokens,
      SigEntry.toTokens, SigEntry.key, SigEntry.valueTokens, List.append_assoc,
      CardanoSignature.REQUEST_ID, CardanoSignature.WITNESS_SET]

/-- `map_size` counts exactly the emitted signature entries. -/
theorem sig_size_entries (s : CardanoSignature) :
    s.map_size = (sigFieldEntries s).length := by
  obtain ⟨rid, w⟩ := s
  cases rid <;> simp [CardanoSignature.map_size, sigFieldEntries]

/-- Folding a signature's own field entries over the default rebuilds it. -/
theorem sig_fold_entries (s : CardanoSignature) :
    (sigFieldEntries s).foldl SigEntry.apply CardanoSignature.default = s := by
  obtain ⟨rid, w⟩ := s
  cases rid <;> simp [sigFieldEntries, SigEntry.apply, CardanoSignature.default]

/-- The signature encoder emits only well-formed entries. -/
theorem sig_fieldEntries_wf (s : CardanoSignature) : ∀ e ∈ sigFieldEntries s, e.wf := by
  intro e he
  cases e
  case unknown k v =>
    obtain ⟨rid, w⟩ := s
    cases rid <;> simp [sigFieldEntries] at he
  all_goals trivial

/-- Token-level round trip for `CardanoSignature`. -/
theorem sig_roundtrip (s : CardanoSignature) :
    CardanoSignature.decodeTokens s.encodeTokens = .ok (s, []) := by
  rw [sig_encode_entries, sig_size_entries,
    sig_decode_entries (sigFieldEntries s) (sig_fieldEntries_wf s), sig_fold_entries]

/-! ## Generic navigation inside an encoded buffer

Used to state, independently of the encoder's definition, where the nested
tags sit in an encoded buffer: look an entry up by key using only the generic
CBOR structure (map header, integer keys, generic value skip), then inspect
the first token of its value. -/

/-- Scan up to `n` map entries for integer key `k`; on a hit return the cursor
positioned at the entry's value.  Unmatched entries are passed over with the
generic skip. -/
def findEntryValue (k : Int) : Nat → List CborToken → Option (List CborToken)
  | 0, _ => none
  | n + 1, d =>
    match d with
    | .int j :: ts =>
      if j = k then some ts
      else
        match skipItems 1 ts with
        | .ok ts2 => findEntryValue k n ts2
        | .error _ => none
    | _ => none

/-- The cursor at the value of the entry with key `k` of an encoded map. -/
def mapEntryValue (k : Int) : List CborToken → Option (List CborToken)
  | .mapH n :: ts => findEntryValue k n ts
  | _ => none

/-- The cursor at element `i` of an encoded array: read the array header and
skip `i` complete values. -/
def arrElem (i : Nat) : List CborToken → Option (List CborToken)
  | .arrH n :: ts => if i < n then (skipItems i ts).toOption else none
  | _ => none

/-- Skipping `i` elements of a tagged UTXO sequence lands at element `i`. -/
theorem skip_taggedSeq_utxo (t : Nat) :
    ∀ (us : List CardanoUTXO) (i : Nat) (rest : List CborToken), i ≤ us.length →
    skipItems i (taggedSeq t CardanoUTXO.encodeTokens us ++ rest)
      = .ok (taggedSeq t CardanoUTXO.encodeTokens (us.drop i) ++ rest) := by
  intro us
  induction us with
  | nil =>
    intro i rest hi
    have hz : i = 0 := by simpa using hi
    subst hz
    simp [skipItems, taggedSeq]
  | cons u us ih =>
    intro i rest hi
    match i with
    | 0 => simp [skipItems]
    | i + 1 =>
      obtain ⟨b⟩ := u
      have h := ih i rest (by simpa using hi)
      simpa [taggedSeq, CardanoUTXO.encodeTokens, skipItems] using h

/-- Skipping `i` elements of a tagged cert-key sequence lands at element `i`. -/
theorem skip_taggedSeq_certKey (t : Nat) :
    ∀ (cs : List CardanoCertKey) (i : Nat) (rest : List CborToken), i ≤ cs.length →
    skipItems i (taggedSeq t CardanoCertKey.encodeTokens cs ++ rest)
      = .ok (taggedSeq t CardanoCertKey.encodeTokens (cs.drop i) ++ rest) := by
  intro cs
  induction cs with
  | nil =>
    intro i rest hi
    have hz : i = 0 := by simpa using hi
    subst hz
    simp [skipItems, taggedSeq]
  | cons c cs ih =>
    intro i rest hi
    match i with
    | 0 => simp [skipItems]
    | i + 1 =>
      obtain ⟨b⟩ := c
      have h := ih i rest (by simpa using hi)
      simpa [taggedSeq, CardanoCertKey.encodeTokens, skipItems] using h

/-- Entry token streams concatenate over entry-list append. -/
theorem reqEntriesTokens_append (es1 es2 : List ReqEntry) :
    reqEntriesTokens (es1 ++ es2) = reqEntriesTokens es1 ++ reqEntriesTokens es2 := by
  induction es1 with
  | nil => simp [reqEntriesTokens]
  | cons e es ih => simp [reqEntriesTokens, ih, List.append_assoc]

/-- The generic skip consumes the value of any request entry in one step. -/
theorem reqEntry_skipValue (e : ReqEntry) (rest : List CborToken) :
    skipItems 1 (e.valueTokens ++ rest) = .ok rest := by
  cases e with
  | reqId t b => simp [ReqEntry.valueTokens, skipItems]
  | signData b => simp [ReqEntry.valueTokens, skipItems]
  | utxos t us =>
    have h := skip_taggedSeq_utxo t us us.length rest (Nat.le_refl _)
    simp only [List.drop_length, taggedSeq, List.nil_append] at h
    simp only [ReqEntry.valueTokens, List.cons_append]
    rw [show skipItems 1
        (CborToken.arrH us.length :: (taggedSeq t CardanoUTXO.encodeTokens us ++ rest))
        = skipItems (0 + us.length) (taggedSeq t CardanoUTXO.encodeTokens us ++ rest)
      from by simp [skipItems]]
    rw [Nat.zero_add]
    exact h
  | certKeys t cs =>
    have h := skip_taggedSeq_certKey t cs cs.length rest (Nat.le_refl _)
    simp only [List.drop_length, taggedSeq, List.nil_append] at h
    simp only [ReqEntry.valueTokens, List.cons_append]
    rw [show skipItems 1
        (CborToken.arrH cs.length :: (taggedSeq t CardanoCertKey.encodeTokens cs ++ rest))
        = skipItems (0 + cs.length) (taggedSeq t CardanoCertKey.encodeTokens cs ++ rest)
      from by simp [skipItems]]
    rw [Nat.zero_add]
    exact h
  | origin s => simp [ReqEntry.valueTokens, skipItems]
  | unknown k v => exact (skipItems_value v 0 rest).trans (by simp [skipItems])

/-- The generic entry scan passes over entries whose key differs from the
target. -/
theorem findEntry_skip_entries (k : Int) :
    ∀ (es : List ReqEntry) (m : Nat) (rest : List CborToken), (∀ e ∈ es, e.key ≠ k) →
    findEntryValue k (es.length + m) (reqEntriesTokens es ++ rest)
      = findEntryValue k m rest := by
  intro es
  induction es with
  | nil => intro m rest _; simp [reqEntriesTokens]
  | cons e es ih =>
    intro m rest hkey
    have hlen : (e :: es).length + m = (es.length + m) + 1 := by
      simp [List.length_cons]; omega
    rw [hlen]
    have htok : reqEntriesTokens (e :: es) ++ rest
        = CborToken.int e.key :: (e.valueTokens ++ (reqEntriesTokens es ++ rest)) := by
      simp [reqEntriesTokens, ReqEntry.toTokens, List.append_assoc]
    rw [htok]
    simp only [findEntryValue, if_neg (hkey e (by simp)),
      reqEntry_skipValue e (reqEntriesTokens es ++ rest)]
    exact ih m rest (fun x hx => hkey x (by simp [hx]))

/-- The generic entry scan hits an entry whose key matches the target. -/
theorem findEntry_head_hit (k : Int) (m : Nat) (ts : List CborToken) :
    findEntryValue k (m + 1) (CborToken.int k :: ts) = some ts := by
  simp [findEntryValue]

/-- Looking up the key of an emitted entry in an encoded request buffer lands
exactly at that entry's value tokens. -/
theorem req_mapEntryValue_hit (r : CardanoSignRequest) (es1 : List ReqEntry)
    (e : ReqEntry) (es2 : List ReqEntry)
    (hsplit : reqFieldEntries r = es1 ++ e :: es2) (hk : ∀ x ∈ es1, x.key ≠ e.key) :
    mapEntryValue e.key r.encodeTokens
      = some (e.valueTokens ++ reqEntriesTokens es2) := by
  rw [req_encode_entries r, hsplit]
  have hsz : r.get_map_size = es1.length + (es2.length + 1) := by
    rw [req_size_entries, hsplit]
    simp [List.length_append]
  rw [hsz]
  show findEntryValue e.key (es1.length + (es2.length + 1))
    (reqEntriesTokens (es1 ++ e :: es2)) = _
  rw [reqEntriesTokens_append,
    show reqEntriesTokens (e :: es2)
      = CborToken.int e.key :: (e.valueTokens ++ reqEntriesTokens es2) from by
        simp [reqEntriesTokens, ReqEntry.toTokens],
    findEntry_skip_entries e.key es1 (es2.length + 1) _ hk,
    findEntry_head_hit]

/-- Element `i` of an encoded tagged UTXO array starts with the tag written
before it. -/
theorem arrElem_taggedSeq_utxo (t : Nat) (us : List CardanoUTXO) (i : Nat)
    (hi : i < us.length) (rest : List CborToken) :
    (arrElem i (CborToken.arrH us.length ::
        (taggedSeq t CardanoUTXO.encodeTokens us ++ rest))).bind List.head?
      = some (CborToken.tag t) := by
  have hskip := skip_taggedSeq_utxo t us i rest (Nat.le_of_lt hi)
  obtain ⟨u, us2, hdrop⟩ : ∃ u us2, us.drop i = u :: us2 := by
    cases h : us.drop i with
    | nil =>
      exfalso
      have h0 : (us.drop i).length = 0 := by rw [h]; rfl
      rw [List.length_drop] at h0
      omega
    | cons u us2 => exact ⟨u, us2, rfl⟩
  simp [arrElem, hi, hskip, hdrop, taggedSeq, Except.toOption]

/-- Element `i` of an encoded tagged cert-key array starts with the tag
written before it. -/
theorem arrElem_taggedSeq_certKey (t : Nat) (cs : List CardanoCertKey) (i : Nat)
    (hi : i < cs.length) (rest : List CborToken) :
    (arrElem i (CborToken.arrH cs.length ::
        (taggedSeq t CardanoCertKey.encodeTokens cs ++ rest))).bind List.head?
      = some (CborToken.tag t) := by
  have hskip := skip_taggedSeq_certKey t cs i rest (Nat.le_of_lt hi)
  obtain ⟨c, cs2, hdrop⟩ : ∃ c cs2, cs.drop i = c :: cs2 := by
    cases h : cs.drop i with
    | nil =>
      exfalso
      have h0 : (cs.drop i).length = 0 := by rw [h]; rfl
      rw [List.length_drop] at h0
      omega
    | cons c cs2 => exact ⟨c, cs2, rfl⟩
  simp [arrElem, hi, hskip, hdrop, taggedSeq, Except.toOption]

/-- `to_bytes` on the request always succeeds with the encoder's tokens. -/
theorem req_to_bytes_ok (r : CardanoSignRequest) :
    r.to_bytes = .ok r.encodeTokens := by
  simp [CardanoSignRequest.to_bytes, emitAll_vecWrite]

/-- `to_bytes` on the signature always succeeds with the encoder's tokens. -/
theorem sig_to_bytes_ok (s : CardanoSignature) :
    s.to_bytes = .ok s.encodeTokens := by
  simp [CardanoSignature.to_bytes, emitAll_vecWrite]

/-- A concrete sample request with every optional field populated, used by
witness instantiations. -/
def sampleReq : CardanoSignRequest :=
  { request_id := some [1], sign_data := [2], utxos := [⟨[4]⟩, ⟨[5]⟩],
    cert_keys := [⟨[6]⟩], origin := some "w" }

/-- A concrete sample signature with the optional field populated, used by
witness instantiations. -/
def sampleSig : CardanoSignature :=
  { request_id := some [6], witness_set := [7] }

/-- A concrete sample nested CBOR value, used by witness instantiations. -/
def sampleVal : CborValue :=
  .map [(.int 0, .arr [.int 1])]

/-! ## Claims -/

/-- C1: for every `CardanoSignRequest` and every `CardanoSignature`, with any
combination of optional fields present or absent, decoding the bytes produced
by encoding the record yields a record equal to it field by field:
`decode(encode(r)) == r`. -/
theorem claim_C1_roundtrip (r : CardanoSignRequest) (s : CardanoSignature) :
    (r.to_bytes >>= CardanoSignRequest.from_cbor) = Except.ok r ∧
    (s.to_bytes >>= CardanoSignature.from_cbor) = Except.ok s := by
  constructor
  · rw [req_to_bytes_ok r]
    show CardanoSignRequest.from_cbor r.encodeTokens = Except.ok r
    simp [CardanoSignRequest.from_cbor, req_roundtrip r]
  · rw [sig_to_bytes_ok s]
    show CardanoSignature.from_cbor s.encodeTokens = Except.ok s
    simp [CardanoSignature.from_cbor, sig_roundtrip s]

/-- C2 (counterexample): a `CardanoSignature` buffer whose `request_id` entry
carries tag 9999 — which differs from the registered UUID tag 37 — does NOT
fail with a tag-mismatch error: it decodes successfully, refuting the claim
that a non-matching nested tag makes decode fail. -/
theorem claim_C2_counterexample :
    UUID_TAG ≠ 9999 ∧
    CardanoSignature.decodeTokens
      [.mapH 2, .int 1, .tag 9999, .bytes [170], .int 2, .bytes [187]]
      = .ok ({ request_id := some [170], witness_set := [187] }, []) := by
  constructor
  · decide
  · decide

/-- C2 (amended): decode requires a tag token to be present in front of each
nested field — its absence is a decode error — but it never compares the tag
value to the registered tag: a buffer carrying any tag values in the nested
positions decodes successfully, to the same record as with the correct tags
(so in particular the buffer with the correct tags decodes successfully). -/
theorem claim_C2_tag_not_validated (t1 t2 t3 t4 : Nat) (idb sd ub cb w : Bytes) :
    CardanoSignRequest.decodeTokens
      (.mapH 4 :: reqEntriesTokens
        [.reqId t1 idb, .signData sd, .utxos t2 [⟨ub⟩], .certKeys t3 [⟨cb⟩]])
      = .ok ({ request_id := some idb, sign_data := sd, utxos := [⟨ub⟩],
               cert_keys := [⟨cb⟩], origin := none }, []) ∧
    CardanoSignature.decodeTokens
      (.mapH 2 :: sigEntriesTokens [.reqId t4 idb, .witnessSet w])
      = .ok ({ request_id := some idb, witness_set := w }, []) ∧
    CardanoSignature.decodeTokens [.mapH 2, .int 1, .bytes idb, .int 2, .bytes w]
      = .error (.typeMismatch "tag") := by
  refine ⟨?_, ?_, ?_⟩
  · have h := req_decode_entries
      [.reqId t1 idb, .signData sd, .utxos t2 [⟨ub⟩], .certKeys t3 [⟨cb⟩]]
      (by intro e he; cases e <;> trivial)
    simpa [ReqEntry.apply, CardanoSignRequest.default] using h
  · have h := sig_decode_entries [.reqId t4 idb, .witnessSet w]
      (by intro e he; cases e <;> trivial)
    simpa [SigEntry.apply, CardanoSignature.default] using h
  · simp only [CardanoSignature.decodeTokens, cbor_map, readMapHeader]
    exact cborMapLoop_step_error _ 1 _ rfl
      (by simp [CardanoSignature.dispatch, show u8TryFrom 1 = .ok 1 from by decide,
        CardanoSignature.REQUEST_ID, readTag])

/-- C3 (counterexample): a well-formed buffer containing one map entry whose
integer key 256 is not one of the recognized field keys makes decode FAIL
(the dispatcher's `u8::try_from` rejects it), refuting the claim that decode
succeeds for every unrecognized integer key. -/
theorem claim_C3_counterexample :
    CardanoSignRequest.decodeTokens [.mapH 1, .int 256, .int 0]
      = .error (.message "out of range integral type conversion attempted") := by
  decide

/-- C3 (amended): for every record and every extra map entry, appended after
the last known field, whose integer key fits in `u8` (0 ..= 255) and is not
one of the recognized field keys, and whose value is an arbitrary well-formed
CBOR value, decode succeeds, reads and discards that entry, and still
populates all recognized fields correctly. -/
theorem claim_C3_unknown_key (r : CardanoSignRequest) (s : CardanoSignature) (k : Nat)
    (v : CborValue) (hk : k ≤ 255) (h1 : k ≠ 1) (h2 : k ≠ 2) (h3 : k ≠ 3) (h4 : k ≠ 4)
    (h5 : k ≠ 5) :
    CardanoSignRequest.decodeTokens
      (.mapH (r.get_map_size + 1) :: reqEntriesTokens (reqFieldEntries r ++ [.unknown k v]))
      = .ok (r, []) ∧
    CardanoSignature.decodeTokens
      (.mapH (s.map_size + 1) :: sigEntriesTokens (sigFieldEntries s ++ [.unknown k v]))
      = .ok (s, []) := by
  constructor
  · have hwf : ∀ e ∈ reqFieldEntries r ++ [ReqEntry.unknown k v], e.wf := by
      intro e he
      rcases List.mem_append.mp he with h | h
      · exact req_fieldEntries_wf r e h
      · simp at h; subst h; exact ⟨hk, h1, h2, h3, h4, h5⟩
    have h := req_decode_entries (reqFieldEntries r ++ [.unknown k v]) hwf
    simpa [List.length_append, ← req_size_entries, List.foldl_append, ReqEntry.apply,
      req_fold_entries r] using h
  · have hwf : ∀ e ∈ sigFieldEntries s ++ [SigEntry.unknown k v], e.wf := by
      intro e he
      rcases List.mem_append.mp he with h | h
      · exact sig_fieldEntries_wf s e h
      · simp at h; subst h; exact ⟨hk, h1, h2⟩
    have h := sig_decode_entries (sigFieldEntries s ++ [.unknown k v]) hwf
    simpa [List.length_append, ← sig_size_entries, List.foldl_append, SigEntry.apply,
      sig_fold_entries s] using h

/-- C3 witness: the amended statement at a concrete record, key 9 and a nested
well-formed value. -/
theorem claim_C3_unknown_key_witness :
    (9 : Nat) ≤ 255 ∧ (9 : Nat) ≠ 1 ∧ (9 : Nat) ≠ 2 ∧ (9 : Nat) ≠ 3 ∧
    (9 : Nat) ≠ 4 ∧ (9 : Nat) ≠ 5 ∧
    CardanoSignRequest.decodeTokens
      (.mapH (sampleReq.get_map_size + 1)
        :: reqEntriesTokens (reqFieldEntries sampleReq ++ [.unknown 9 sampleVal]))
      = .ok (sampleReq, []) ∧
    CardanoSignature.decodeTokens
      (.mapH (sampleSig.map_size + 1)
        :: sigEntriesTokens (sigFieldEntries sampleSig ++ [.unknown 9 sampleVal]))
      = .ok (sampleSig, []) := by
  refine ⟨by decide, by decide, by decide, by decide, by decide, by decide, ?_, ?_⟩
  · exact (claim_C3_unknown_key sampleReq sampleSig 9 sampleVal
      (by decide) (by decide) (by decide) (by decide) (by decide) (by decide)).1
  · exact (claim_C3_unknown_key sampleReq sampleSig 9 sampleVal
      (by decide) (by decide) (by decide) (by decide) (by decide) (by decide)).2

/-- C7: encoding is total: `to_bytes` returns `Ok` for every well-formed
in-memory record, because the in-memory `Vec<u8>` sink's write error type is
uninhabited. -/
theorem claim_C7_encode_total (r : CardanoSignRequest) (s : CardanoSignature) :
    r.to_bytes = .ok r.encodeTokens ∧ s.to_bytes = .ok s.encodeTokens :=
  ⟨req_to_bytes_ok r, sig_to_bytes_ok s⟩

/-- C4: the map entry count written in the encoded header equals exactly the
number of key/value pairs emitted in the body: 3 plus one for each populated
optional field for `CardanoSignRequest`, 1 plus one for `CardanoSignature`;
populating one optional field changes the count by exactly one. -/
theorem claim_C4_map_size (r : CardanoSignRequest) (s : CardanoSignature) (b : Bytes)
    (o : String) (w : Bytes) :
    (r.encodeTokens = CborToken.mapH r.get_map_size :: reqEntriesTokens (reqFieldEntries r) ∧
      r.get_map_size = (reqFieldEntries r).length) ∧
    (s.encodeTokens = CborToken.mapH s.map_size :: sigEntriesTokens (sigFieldEntries s) ∧
      s.map_size = (sigFieldEntries s).length) ∧
    r.get_map_size
      = 3 + (if r.request_id.isSome then 1 else 0) + (if r.origin.isSome then 1 else 0) ∧
    s.map_size = 1 + (if s.request_id.isSome then 1 else 0) ∧
    (r.set_request_id (some b)).get_map_size = (r.set_request_id none).get_map_size + 1 ∧
    (r.set_origin (some o)).get_map_size = (r.set_origin none).get_map_size + 1 ∧
    (s.set_request_id (some w)).map_size = (s.set_request_id none).map_size + 1 := by
  refine ⟨⟨req_encode_entries r, req_size_entries r⟩,
    ⟨sig_encode_entries s, sig_size_entries s⟩, ?_, ?_, ?_, ?_, ?_⟩
  · obtain ⟨rid, sd, us, cs, og⟩ := r
    cases rid <;> cases og <;> simp [CardanoSignRequest.get_map_size]
  · obtain ⟨rid, w2⟩ := s
    cases rid <;> simp [CardanoSignature.map_size]
  · obtain ⟨rid, sd, us, cs, og⟩ := r
    cases og <;>
      simp [CardanoSignRequest.get_map_size, CardanoSignRequest.set_request_id]
  · obtain ⟨rid, sd, us, cs, og⟩ := r
    cases rid <;> simp [CardanoSignRequest.get_map_size, CardanoSignRequest.set_origin]
  · obtain ⟨rid, w2⟩ := s
    simp [CardanoSignature.map_size, CardanoSignature.set_request_id]

/-- C5: encode emits the present fields in strictly ascending key order
(1 request_id, 2 sign_data, 3 utxos, 4 cert_keys, 5 origin for the request;
1 request_id, 2 witness_set for the signature), key `k` appears in the body
exactly when its field is present (an absent optional field contributes no
entry), and the encoding depends only on the record's field values, not on
the order in which the caller's setters populated them. -/
theorem claim_C5_key_order (r : CardanoSignRequest) (s : CardanoSignature)
    (id : Option Bytes) (sd : Bytes) (us : List CardanoUTXO) (cs : List CardanoCertKey)
    (og : Option String) :
    r.encodeTokens = CborToken.mapH r.get_map_size :: reqEntriesTokens (reqFieldEntries r) ∧
    List.Chain' (· < ·) ((reqFieldEntries r).map ReqEntry.key) ∧
    (((1 : Int) ∈ (reqFieldEntries r).map ReqEntry.key) ↔ r.request_id.isSome) ∧
    (2 : Int) ∈ (reqFieldEntries r).map ReqEntry.key ∧
    (3 : Int) ∈ (reqFieldEntries r).map ReqEntry.key ∧
    (4 : Int) ∈ (reqFieldEntries r).map ReqEntry.key ∧
    (((5 : Int) ∈ (reqFieldEntries r).map ReqEntry.key) ↔ r.origin.isSome) ∧
    s.encodeTokens = CborToken.mapH s.map_size :: sigEntriesTokens (sigFieldEntries s) ∧
    List.Chain' (· < ·) ((sigFieldEntries s).map SigEntry.key) ∧
    (((1 : Int) ∈ (sigFieldEntries s).map SigEntry.key) ↔ s.request_id.isSome) ∧
    (2 : Int) ∈ (sigFieldEntries s).map SigEntry.key ∧
    CardanoSignRequest.encodeTokens
      (((((CardanoSignRequest.default.set_origin og).set_cert_keys cs).set_utxos
          us).set_sign_data sd).set_request_id id)
      = CardanoSignRequest.encodeTokens
        (((((CardanoSignRequest.default.set_request_id id).set_sign_data sd).set_utxos
            us).set_cert_keys cs).set_origin og) := by
  refine ⟨req_encode_entries r, ?_, ?_, ?_, ?_, ?_, ?_, sig_encode_entries s, ?_, ?_, ?_, ?_⟩
  · obtain ⟨rid, rsd, rus, rcs, rog⟩ := r
    cases rid <;> cases rog <;> simp [reqFieldEntries, ReqEntry.key]
  · obtain ⟨rid, rsd, rus, rcs, rog⟩ := r
    cases rid <;> cases rog <;> simp [reqFieldEntries, ReqEntry.key]
  · obtain ⟨rid, rsd, rus, rcs, rog⟩ := r
    cases rid <;> cases rog <;> simp [reqFieldEntries, ReqEntry.key]
  · obtain ⟨rid, rsd, rus, rcs, rog⟩ := r
    cases rid <;> cases rog <;> simp [reqFieldEntries, ReqEntry.key]
  · obtain ⟨rid, rsd, rus, rcs, rog⟩ := r
    cases rid <;> cases rog <;> simp [reqFieldEntries, ReqEntry.key]
  · obtain ⟨rid, rsd, rus, rcs, rog⟩ := r
    cases rid <;> cases rog <;> simp [reqFieldEntries, ReqEntry.key]
  · obtain ⟨rid, w⟩ := s
    cases rid <;> simp [sigFieldEntries, SigEntry.key]
  · obtain ⟨rid, w⟩ := s
    cases rid <;> simp [sigFieldEntries, SigEntry.key]
  · obtain ⟨rid, w⟩ := s
    cases rid <;> simp [sigFieldEntries, SigEntry.key]
  · simp [CardanoSignRequest.set_request_id, CardanoSignRequest.set_sign_data,
      CardanoSignRequest.set_utxos, CardanoSignRequest.set_cert_keys,
      CardanoSignRequest.set_origin, CardanoSignRequest.default]

/-- C6: for every request, the encoder writes, at key 3 (resp. key 4), an
array header of length `n = r.utxos.length` (resp. `r.cert_keys.length`)
followed by the `n` tagged nested encodings in the original order, and
decoding the encoded buffer yields the same `n` nested records in the same
order. -/
theorem claim_C6_sequence_order (r : CardanoSignRequest) :
    (∃ pre post, r.encodeTokens
      = pre ++ (CborToken.int 3 :: CborToken.arrH r.utxos.length ::
          taggedSeq CARDANO_UTXO_TAG CardanoUTXO.encodeTokens r.utxos) ++ post) ∧
    (∃ pre post, r.encodeTokens
      = pre ++ (CborToken.int 4 :: CborToken.arrH r.cert_keys.length ::
          taggedSeq CARDANO_CERT_KEY_TAG CardanoCertKey.encodeTokens r.cert_keys) ++ post) ∧
    (CardanoSignRequest.decodeTokens r.encodeTokens).map (fun p => p.1.utxos)
      = .ok r.utxos ∧
    (CardanoSignRequest.decodeTokens r.encodeTokens).map (fun p => p.1.cert_keys)
      = .ok r.cert_keys := by
  refine ⟨?_, ?_, ?_, ?_⟩
  · refine ⟨CborToken.mapH r.get_map_size ::
      ((match r.request_id with
        | some id => [CborToken.int 1, CborToken.tag UUID_TAG, CborToken.bytes id]
        | none => []) ++ [CborToken.int 2, CborToken.bytes r.sign_data]),
      (CborToken.int 4 :: CborToken.arrH r.cert_keys.length ::
        taggedSeq CARDANO_CERT_KEY_TAG CardanoCertKey.encodeTokens r.cert_keys) ++
      (match r.origin with
        | some o => [CborToken.int 5, CborToken.str o]
        | none => []), ?_⟩
    obtain ⟨rid, sd, rus, rcs, og⟩ := r
    cases rid <;> cases og <;>
      simp [CardanoSignRequest.encodeTokens, List.append_assoc,
        CardanoSignRequest.REQUEST_ID, CardanoSignRequest.SIGN_DATA, CardanoSignRequest.UTXOS,
        CardanoSignRequest.CERT_KEYS, CardanoSignRequest.ORIGIN]
  · refine ⟨(CborToken.mapH r.get_map_size ::
      ((match r.request_id with
        | some id => [CborToken.int 1, CborToken.tag UUID_TAG, CborToken.bytes id]
        | none => []) ++ [CborToken.int 2, CborToken.bytes r.sign_data])) ++
      (CborToken.int 3 :: CborToken.arrH r.utxos.length ::
        taggedSeq CARDANO_UTXO_TAG CardanoUTXO.encodeTokens r.utxos),
      (match r.origin with
        | some o => [CborToken.int 5, CborToken.str o]
        | none => []), ?_⟩
    obtain ⟨rid, sd, rus, rcs, og⟩ := r
    cases rid <;> cases og <;>
      simp [CardanoSignRequest.encodeTokens, List.append_assoc,
        CardanoSignRequest.REQUEST_ID, CardanoSignRequest.SIGN_DATA, CardanoSignRequest.UTXOS,
        CardanoSignRequest.CERT_KEYS, CardanoSignRequest.ORIGIN]
  · rw [req_roundtrip r]
    simp [Except.map]
  · rw [req_roundtrip r]
    simp [Except.map]

/-- C10: when the same recognized key occurs in several map entries, decode
succeeds; the scalar fields (request_id, sign_data, origin, witness_set) keep
the value of the last occurrence, while the repeated nested fields (utxos,
cert_keys) accumulate the elements of every occurrence in entry order. -/
theorem claim_C10_duplicate_keys (a1 a2 b1 b2 : Bytes) (us1 us2 : List CardanoUTXO)
    (cs1 cs2 : List CardanoCertKey) (o1 o2 : String) (w1 w2 : Bytes) :
    CardanoSignRequest.decodeTokens
      (.mapH 10 :: reqEntriesTokens
        [.reqId UUID_TAG a1, .signData b1, .utxos CARDANO_UTXO_TAG us1,
         .certKeys CARDANO_CERT_KEY_TAG cs1, .origin o1,
         .reqId UUID_TAG a2, .signData b2, .utxos CARDANO_UTXO_TAG us2,
         .certKeys CARDANO_CERT_KEY_TAG cs2, .origin o2])
      = .ok ({ request_id := some a2, sign_data := b2, utxos := us1 ++ us2,
               cert_keys := cs1 ++ cs2, origin := some o2 }, []) ∧
    CardanoSignature.decodeTokens
      (.mapH 4 :: sigEntriesTokens
        [.reqId UUID_TAG a1, .witnessSet w1, .reqId UUID_TAG a2, .witnessSet w2])
      = .ok ({ request_id := some a2, witness_set := w2 }, []) := by
  constructor
  · have h := req_decode_entries
      [.reqId UUID_TAG a1, .signData b1, .utxos CARDANO_UTXO_TAG us1,
       .certKeys CARDANO_CERT_KEY_TAG cs1, .origin o1,
       .reqId UUID_TAG a2, .signData b2, .utxos CARDANO_UTXO_TAG us2,
       .certKeys CARDANO_CERT_KEY_TAG cs2, .origin o2]
      (by intro e he; cases e <;> trivial)
    simpa [ReqEntry.apply, CardanoSignRequest.default] using h
  · have h := sig_decode_entries
      [.reqId UUID_TAG a1, .witnessSet w1, .reqId UUID_TAG a2, .witnessSet w2]
      (by intro e he; cases e <;> trivial)
    simpa [SigEntry.apply, CardanoSignature.default] using h

/-- C8: encode writes the registered tag immediately before every nested
record's bytes: navigating an encoded buffer generically (map-header, key
lookup with generic skips, array-header, element skips), the value found at
key 1 starts with the UUID tag when `request_id` is present, every element of
the array at key 3 starts with the CARDANO_UTXO tag, every element of the
array at key 4 starts with the CARDANO_CERT_KEY tag, and the signature's key 1
value starts with the UUID tag. -/
theorem claim_C8_nested_tags (r : CardanoSignRequest) (s : CardanoSignature) :
    (∀ id, r.request_id = some id →
      (mapEntryValue 1 r.encodeTokens).bind List.head? = some (CborToken.tag UUID_TAG)) ∧
    (∀ i, i < r.utxos.length →
      ((mapEntryValue 3 r.encodeTokens).bind (arrElem i)).bind List.head?
        = some (CborToken.tag CARDANO_UTXO_TAG)) ∧
    (∀ i, i < r.cert_keys.length →
      ((mapEntryValue 4 r.encodeTokens).bind (arrElem i)).bind List.head?
        = some (CborToken.tag CARDANO_CERT_KEY_TAG)) ∧
    (∀ id, s.request_id = some id →
      (mapEntryValue 1 s.encodeTokens).bind List.head? = some (CborToken.tag UUID_TAG)) := by
  obtain ⟨rid, sd, rus, rcs, og⟩ := r
  obtain ⟨sid, w⟩ := s
  refine ⟨?_, ?_, ?_, ?_⟩
  · intro id hid
    cases rid with
    | none => exact absurd hid (by simp)
    | some x =>
      have hx : x = id := by simpa using hid
      subst hx
      cases og <;> rfl
  · intro i hi
    cases rid with
    | none =>
      cases og with
      | none =>
        have h := req_mapEntryValue_hit ⟨none, sd, rus, rcs, none⟩
          [.signData sd] (.utxos CARDANO_UTXO_TAG rus)
          [.certKeys CARDANO_CERT_KEY_TAG rcs]
          (by simp [reqFieldEntries]) (by simp [ReqEntry.key])
        rw [show (ReqEntry.utxos CARDANO_UTXO_TAG rus).key = (3 : Int) from rfl] at h
        rw [h]
        simpa [ReqEntry.valueTokens, List.cons_append, List.append_assoc] using
          arrElem_taggedSeq_utxo CARDANO_UTXO_TAG rus i hi
            (reqEntriesTokens [.certKeys CARDANO_CERT_KEY_TAG rcs])
      | some o =>
        have h := req_mapEntryValue_hit ⟨none, sd, rus, rcs, some o⟩
          [.signData sd] (.utxos CARDANO_UTXO_TAG rus)
          [.certKeys CARDANO_CERT_KEY_TAG rcs, .origin o]
          (by simp [reqFieldEntries]) (by simp [ReqEntry.key])
        rw [show (ReqEntry.utxos CARDANO_UTXO_TAG rus).key = (3 : Int) from rfl] at h
        rw [h]
        simpa [ReqEntry.valueTokens, List.cons_append, List.append_assoc] using
          arrElem_taggedSeq_utxo CARDANO_UTXO_TAG rus i hi
            (reqEntriesTokens [.certKeys CARDANO_CERT_KEY_TAG rcs, .origin o])
    | some b =>
      cases og with
      | none =>
        have h := req_mapEntryValue_hit ⟨some b, sd, rus, rcs, none⟩
          [.reqId UUID_TAG b, .signData sd] (.utxos CARDANO_UTXO_TAG rus)
          [.certKeys CARDANO_CERT_KEY_TAG rcs]
          (by simp [reqFieldEntries]) (by simp [ReqEntry.key])
        rw [show (ReqEntry.utxos CARDANO_UTXO_TAG rus).key = (3 : Int) from rfl] at h
        rw [h]
        simpa [ReqEntry.valueTokens, List.cons_append, List.append_assoc] using
          arrElem_taggedSeq_utxo CARDANO_UTXO_TAG rus i hi
            (reqEntriesTokens [.certKeys CARDANO_CERT_KEY_TAG rcs])
      | some o =>
        have h := req_mapEntryValue_hit ⟨some b, sd, rus, rcs, some o⟩
          [.reqId UUID_TAG b, .signData sd] (.utxos CARDANO_UTXO_TAG rus)
          [.certKeys CARDANO_CERT_KEY_TAG rcs, .origin o]
          (by simp [reqFieldEntries]) (by simp [ReqEntry.key])
        rw [show (ReqEntry.utxos CARDANO_UTXO_TAG rus).key = (3 : Int) from rfl] at h
        rw [h]
        simpa [ReqEntry.valueTokens, List.cons_append, List.append_assoc] using
          arrElem_taggedSeq_utxo CARDANO_UTXO_TAG rus i hi
            (reqEntriesTokens [.certKeys CARDANO_CERT_KEY_TAG rcs, .origin o])
  · intro i hi
    cases rid with
    | none =>
      cases og with
      | none =>
        have h := req_mapEntryValue_hit ⟨none, sd, rus, rcs, none⟩
          [.signData sd, .utxos CARDANO_UTXO_TAG rus]
          (.certKeys CARDANO_CERT_KEY_TAG rcs) []
          (by simp [reqFieldEntries]) (by simp [ReqEntry.key])
        rw [show (ReqEntry.certKeys CARDANO_CERT_KEY_TAG rcs).key = (4 : Int) from rfl] at h
        rw [h]
        simpa [ReqEntry.valueTokens, List.cons_append, List.append_assoc] using
          arrElem_taggedSeq_certKey CARDANO_CERT_KEY_TAG rcs i hi (reqEntriesTokens [])
      | some o =>
        have h := req_mapEntryValue_hit ⟨none, sd, rus, rcs, some o⟩
          [.signData sd, .utxos CARDANO_UTXO_TAG rus]
          (.certKeys CARDANO_CERT_KEY_TAG rcs) [.origin o]
          (by simp [reqFieldEntries]) (by simp [ReqEntry.key])
        rw [show (ReqEntry.certKeys CARDANO_CERT_KEY_TAG rcs).key = (4 : Int) from rfl] at h
        rw [h]
        simpa [ReqEntry.valueTokens, List.cons_append, List.append_assoc] using
          arrElem_taggedSeq_certKey CARDANO_CERT_KEY_TAG rcs i hi
            (reqEntriesTokens [.origin o])
    | some b =>
      cases og with
      | none =>
        have h := req_mapEntryValue_hit ⟨some b, sd, rus, rcs, none⟩
          [.reqId UUID_TAG b, .signData sd, .utxos CARDANO_UTXO_TAG rus]
          (.certKeys CARDANO_CERT_KEY_TAG rcs) []
          (by simp [reqFieldEntries]) (by simp [ReqEntry.key])
        rw [show (ReqEntry.certKeys CARDANO_CERT_KEY_TAG rcs).key = (4 : Int) from rfl] at h
        rw [h]
        simpa [ReqEntry.valueTokens, List.cons_append, List.append_assoc] using
          arrElem_taggedSeq_certKey CARDANO_CERT_KEY_TAG rcs i hi (reqEntriesTokens [])
      | some o =>
        have h := req_mapEntryValue_hit ⟨some b, sd, rus, rcs, some o⟩
          [.reqId UUID_TAG b, .signData sd, .utxos CARDANO_UTXO_TAG rus]
          (.certKeys CARDANO_CERT_KEY_TAG rcs) [.origin o]
          (by simp [reqFieldEntries]) (by simp [ReqEntry.key])
        rw [show (ReqEntry.certKeys CARDANO_CERT_KEY_TAG rcs).key = (4 : Int) from rfl] at h
        rw [h]
        simpa [ReqEntry.valueTokens, List.cons_append, List.append_assoc] using
          arrElem_taggedSeq_certKey CARDANO_CERT_KEY_TAG rcs i hi
            (reqEntriesTokens [.origin o])
  · intro id hid
    cases sid with
    | none => exact absurd hid (by simp)
    | some x =>
      have hx : x = id := by simpa using hid
      subst hx
      rfl

/-- C8 witness: the tag statements at a concrete request and signature with
every nested field populated. -/
theorem claim_C8_nested_tags_witness :
    sampleReq.request_id = some [1] ∧ 0 < sampleReq.utxos.length ∧
    0 < sampleReq.cert_keys.length ∧ sampleSig.request_id = some [6] ∧
    (mapEntryValue 1 sampleReq.encodeTokens).bind List.head?
      = some (CborToken.tag UUID_TAG) ∧
    ((mapEntryValue 3 sampleReq.encodeTokens).bind (arrElem 0)).bind List.head?
      = some (CborToken.tag CARDANO_UTXO_TAG) ∧
    ((mapEntryValue 4 sampleReq.encodeTokens).bind (arrElem 0)).bind List.head?
      = some (CborToken.tag CARDANO_CERT_KEY_TAG) ∧
    (mapEntryValue 1 sampleSig.encodeTokens).bind List.head?
      = some (CborToken.tag UUID_TAG) := by
  refine ⟨by decide, by decide, by decide, by decide, ?_, ?_, ?_, ?_⟩
  · exact (claim_C8_nested_tags sampleReq sampleSig).1 [1] (by decide)
  · exact (claim_C8_nested_tags sampleReq sampleSig).2.1 0 (by decide)
  · exact (claim_C8_nested_tags sampleReq sampleSig).2.2.1 0 (by decide)
  · exact (claim_C8_nested_tags sampleReq sampleSig).2.2.2 [6] (by decide)

/-- C9: decode does not enforce the presence of always-present fields: an
empty map decodes successfully into the all-default record, and a map
omitting key 2 decodes with `sign_data` (resp. `witness_set`) left at its
default empty value. -/
theorem claim_C9_missing_mandatory :
    CardanoSignRequest.decodeTokens [.mapH 0]
      = .ok ({ request_id := none, sign_data := [], utxos := [], cert_keys := [],
               origin := none }, []) ∧
    CardanoSignature.decodeTokens [.mapH 0]
      = .ok ({ request_id := none, witness_set := [] }, []) ∧
    CardanoSignRequest.decodeTokens [.mapH 1, .int 1, .tag 37, .bytes [1]]
      = .ok ({ request_id := some [1], sign_data := [], utxos := [], cert_keys := [],
               origin := none }, []) ∧
    CardanoSignature.decodeTokens [.mapH 1, .int 1, .tag 37, .bytes [1]]
      = .ok ({ request_id := some [1], witness_set := [] }, []) := by
  refine ⟨by decide, by decide, by decide, by decide⟩

end UrRegistry
